import Mathlib

/-!
Verification of the EMG analysis dispatcher `emg_analyze`
(src/neurokit2/emg/emg_analyze.py) against its specification.

The dispatcher receives either a single signal table (a pandas DataFrame)
or an epoch collection (a dict mapping epoch identifiers to DataFrames),
a sampling rate, and a method directive.  It resolves one of two
downstream strategies (event-related or interval-related), optionally
validates that a marker column is present, and delegates.

The embedding below models the two input shapes, the Python error
behaviour (the explicitly raised ValueError, Python UnboundLocalError
when a never-assigned local is used, and ZeroDivisionError), and treats
the two downstream extractors — which are imported from sibling modules
and are out of scope for the dispatcher — as arbitrary functions
`Data → Except Err α` passed in as parameters.
-/

/-- A signal table: what the dispatcher observes of a pandas DataFrame,
namely its column names (`data.columns.values`) and its row count
(`len(data)`). -/
structure Frame where
  columns : List String
  nrows : Nat
deriving Repr, DecidableEq

/-- The two supported input shapes: an epoch collection (a Python dict of
DataFrames, listed in insertion order, which is the order `for i in data`
iterates) or a single signal table. -/
inductive Data where
  | epochs : List Frame → Data
  | frame : Frame → Data
deriving Repr, DecidableEq

/-- Errors the dispatcher itself can produce.
`wrongInput` is the one explicitly raised error in the source
(the ValueError whose message starts "NeuroKit error: emg_analyze(): Wrong input...").
`unboundLocal v` models the Python UnboundLocalError raised when the
local variable `v` is read before any assignment — this is what happens
when a branch falls through without assigning `colnames`, `duration` or
`features`.  `zeroDivision` models Python ZeroDivisionError from
`len(...) / sampling_rate` with a zero sampling rate. -/
inductive Err where
  | wrongInput : Err
  | unboundLocal : String → Err
  | zeroDivision : Err
deriving Repr, DecidableEq

/-- Whether an error corresponds to an explicit `raise` statement in the
source of `emg_analyze` (as opposed to an implicit Python runtime error).
The only explicit raise in the function is the ValueError modelled by
`wrongInput`. -/
def Err.explicitRaise : Err → Bool
  | .wrongInput => true
  | _ => false

/-- Python substring containment: `needle in hay` for strings. -/
def strContains (hay needle : String) : Bool :=
  hay.toList.tails.any (fun t => needle.toList.isPrefixOf t)

/-- Python `str.lower()`.  All method directives are ASCII, on which
Python `str.lower()` agrees with per-character ASCII lowercasing. -/
def pyLower (s : String) : String :=
  ⟨s.data.map Char.toLower⟩

deriving instance DecidableEq for Except

/-- The directive synonyms recognized by the event-related branch:
`method in ["event-related", "event", "epoch"]`. -/
def eventLabels : List String := ["event-related", "event", "epoch"]

/-- The directive synonyms recognized by the interval-related branch:
`method in ["interval-related", "interval", "resting-state"]`. -/
def intervalLabels : List String := ["interval-related", "interval", "resting-state"]

/-- The column names left in the local `colnames` after the sanity-check
loop of the event-related branch: the loop
`for i in data: colnames = data[i].columns.values` overwrites `colnames`
on every iteration, so only the last-visited epoch's columns remain.
For a single table, `colnames = data.columns.values`.
`none` models the case where `colnames` is never assigned
(an empty dict), so reading it raises UnboundLocalError. -/
def lastColnames : Data → Option (List String)
  | .epochs fs => fs.getLast?.map Frame.columns
  | .frame f => some f.columns

/-- The row count left in the local used for the duration estimate of the
auto branch: `for i in data: duration = len(data[i]) / sampling_rate`
overwrites `duration` each iteration, so the last-visited epoch's length
is the one used.  For a single table it is `len(data)`.  `none` models
the never-assigned case (an empty dict). -/
def lastLen : Data → Option Nat
  | .epochs fs => fs.getLast?.map Frame.nrows
  | .frame f => some f.nrows

/-- All column names occurring anywhere in the input (across every epoch
of a collection).  This is the "full set" of column names the spec speaks
about; the source only ever examines `lastColnames`. -/
def allColnames : Data → List String
  | .epochs fs => (fs.map Frame.columns).flatten
  | .frame f => f.columns

/-- The duration estimate `duration = len(...) / sampling_rate` computed
by the auto branch (in seconds), when it is computed at all. -/
def autoDuration (data : Data) (sampling_rate : ℚ) : Option ℚ :=
  (lastLen data).map (fun n => (n : ℚ) / sampling_rate)

/-- Shallow embedding of `emg_analyze(data, sampling_rate, method)`.
The downstream extractors `emg_eventrelated` and `emg_intervalrelated`
are imported collaborators, not part of this module; they are taken as
parameters `er` and `ir`.  The body mirrors the Python control flow:

* `method = method.lower()`;
* event-related branch: compute `colnames` (last-visited epoch, or the
  table's columns), raise ValueError if no name contains `"Label"`,
  else `features = emg_eventrelated(data)`;
* interval-related branch: `features = emg_intervalrelated(data)`;
* auto branch: `duration = len(...) / sampling_rate` (last-visited
  epoch, or the table), then `interval` if `duration >= 10` else `event`;
* no branch taken: `return features` raises UnboundLocalError. -/
def emg_analyze {α : Type} (er ir : Data → Except Err α)
    (data : Data) (sampling_rate : ℚ) (method : String) : Except Err α :=
  let m := pyLower method
  if m ∈ eventLabels then
    match lastColnames data with
    | none => .error (.unboundLocal "colnames")
    | some colnames =>
      if (colnames.filter (fun i => strContains i "Label")).length = 0 then
        .error .wrongInput
      else
        er data
  else if m ∈ intervalLabels then
    ir data
  else if m = "auto" then
    match lastLen data with
    | none => .error (.unboundLocal "duration")
    | some n =>
      if sampling_rate = 0 then
        .error .zeroDivision
      else if (n : ℚ) / sampling_rate ≥ 10 then
        ir data
      else
        er data
  else
    .error (.unboundLocal "features")

/-- A concrete event-related extractor used to instantiate closed
statements. -/
def erConst : Data → Except Err Nat := fun _ => .ok 1

/-- A concrete interval-related extractor used to instantiate closed
statements. -/
def irConst : Data → Except Err Nat := fun _ => .ok 2


/-- An element selected by `getLast?` is a member of the list. -/
theorem mem_of_getLast_eq {α : Type} {l : List α} {a : α}
    (h : l.getLast? = some a) : a ∈ l := by
  induction l with
  | nil => simp at h
  | cons x xs ih =>
    cases xs with
    | nil =>
      simp [List.getLast?] at h
      simp [h]
    | cons y ys =>
      rw [List.getLast?_cons_cons] at h
      exact List.mem_cons_of_mem x (ih h)

/-- The column names the marker check examines are column names of the
input. -/
theorem mem_allColnames_of_lastColnames {data : Data} {cs : List String}
    (h : lastColnames data = some cs) : ∀ c ∈ cs, c ∈ allColnames data := by
  intro c hc
  cases data with
  | frame f =>
    simp only [lastColnames, Option.some.injEq] at h
    subst h
    simpa [allColnames] using hc
  | epochs fs =>
    simp only [lastColnames, Option.map_eq_some'] at h
    obtain ⟨f, hf, rfl⟩ := h
    simp only [allColnames, List.mem_flatten]
    exact ⟨f.columns, List.mem_map_of_mem _ (mem_of_getLast_eq hf), hc⟩

/-- The interval-related synonym list is disjoint from the event-related
synonym list. -/
theorem not_mem_eventLabels_of_mem_intervalLabels {s : String}
    (h : s ∈ intervalLabels) : s ∉ eventLabels := by
  simp only [intervalLabels, List.mem_cons, List.not_mem_nil, or_false] at h
  rcases h with rfl | rfl | rfl <;> decide

/-- **C1.** With directive `auto`, whenever a duration estimate
`d = row_count / sampling_rate` is computed (positive sampling rate, the
duration local assigned), the dispatcher delegates to the event-related
strategy if `d < 10` and to the interval-related strategy if `d ≥ 10`;
in particular `d = 10` resolves to interval-related. -/
theorem emg_analyze_auto_threshold {α : Type} (er ir : Data → Except Err α)
    (data : Data) (sr d : ℚ) (hsr : 0 < sr)
    (hd : autoDuration data sr = some d) :
    (d < 10 → emg_analyze er ir data sr "auto" = er data) ∧
    (10 ≤ d → emg_analyze er ir data sr "auto" = ir data) := by
  obtain ⟨n, hn, rfl⟩ : ∃ n, lastLen data = some n ∧ (n : ℚ) / sr = d := by
    cases h : lastLen data with
    | none => simp [autoDuration, h] at hd
    | some n =>
      refine ⟨n, rfl, ?_⟩
      simpa [autoDuration, h] using hd
  constructor
  · intro hlt
    simp +decide [emg_analyze, hn, hsr.ne', not_le.mpr hlt]
  · intro hge
    simp +decide [emg_analyze, hn, hsr.ne', hge]

/-- Witness for C1: a 2000-row table at sampling rate 1000 (duration 2 s)
goes to the event-related strategy; a 10000-row table (duration exactly
10 s) goes to the interval-related strategy. -/
theorem emg_analyze_auto_threshold_witness :
    emg_analyze erConst irConst (.frame ⟨["EMG"], 2000⟩) 1000 "auto"
      = erConst (.frame ⟨["EMG"], 2000⟩) ∧
    emg_analyze erConst irConst (.frame ⟨["EMG"], 10000⟩) 1000 "auto"
      = irConst (.frame ⟨["EMG"], 10000⟩) :=
  ⟨(emg_analyze_auto_threshold erConst irConst (.frame ⟨["EMG"], 2000⟩) 1000 2
      (by norm_num) (by norm_num [autoDuration, lastLen])).1 (by norm_num),
   (emg_analyze_auto_threshold erConst irConst (.frame ⟨["EMG"], 10000⟩) 1000 10
      (by norm_num) (by norm_num [autoDuration, lastLen])).2 (by norm_num)⟩

/-- **C2.** At directive "banana" the dispatcher matches no branch and
falls through to `return features` with `features` never assigned: the
call fails with a Python UnboundLocalError — an implicit runtime error,
not an explicitly raised Unrecognized-Method error — for a table input
and for an epoch-collection input alike, and no result is returned. -/
theorem emg_analyze_banana_unbound :
    emg_analyze erConst irConst (.frame ⟨["EMG_Amplitude"], 100⟩) 1000 "banana"
      = .error (.unboundLocal "features") ∧
    emg_analyze erConst irConst (.epochs [⟨["Label"], 20000⟩]) 1000 "banana"
      = .error (.unboundLocal "features") ∧
    Err.explicitRaise (.unboundLocal "features") = false := by decide

/-- **C3, counterexample.** A 100-row table with no column name
containing "Label", sampling rate 1000, directive `auto`: the 0.1 s
duration resolves to the event-related strategy, yet the dispatcher
delegates without running the marker-column check and returns the
strategy result instead of failing with the Missing-Marker-Column
error. -/
theorem emg_analyze_auto_skips_marker_check :
    ((allColnames (.frame ⟨["EMG_Amplitude"], 100⟩)).filter
        (fun i => strContains i "Label")).length = 0 ∧
    emg_analyze erConst irConst (.frame ⟨["EMG_Amplitude"], 100⟩) 1000 "auto"
      = erConst (.frame ⟨["EMG_Amplitude"], 100⟩) ∧
    erConst (.frame ⟨["EMG_Amplitude"], 100⟩) ≠ .error .wrongInput := by
  refine ⟨by decide, ?_, by decide⟩
  simp +decide [emg_analyze, lastLen]
  norm_num

/-- **C3, amended.** When the directive explicitly names the
event-related strategy (any synonym, any case) and the input is a table
or a nonempty epoch collection none of whose column names contains
"Label", the dispatcher fails with the Missing-Marker-Column ValueError
before delegating.  (In `auto` mode the marker check does not run, and
on an empty collection the failure is an UnboundLocalError instead.) -/
theorem emg_analyze_eventrelated_missing_marker {α : Type}
    (er ir : Data → Except Err α) (data : Data) (sr : ℚ) (m : String)
    (cs : List String)
    (hm : pyLower m ∈ eventLabels)
    (hcs : lastColnames data = some cs)
    (hfree : ∀ c ∈ allColnames data, strContains c "Label" = false) :
    emg_analyze er ir data sr m = .error .wrongInput := by
  have hnil : cs.filter (fun i => strContains i "Label") = [] :=
    List.filter_eq_nil_iff.mpr (fun c hc => by
      simp [hfree c (mem_allColnames_of_lastColnames hcs c hc)])
  simp [emg_analyze, hm, hcs, hnil]

/-- Witness for the amended C3: the mixed-case synonym "Event-Related"
on a table whose only column is "EMG_Amplitude" fails with the
Missing-Marker-Column ValueError. -/
theorem emg_analyze_eventrelated_missing_marker_witness :
    emg_analyze erConst irConst (.frame ⟨["EMG_Amplitude"], 100⟩) 1000 "Event-Related"
      = .error .wrongInput :=
  emg_analyze_eventrelated_missing_marker erConst irConst
    (.frame ⟨["EMG_Amplitude"], 100⟩) 1000 "Event-Related" ["EMG_Amplitude"]
    (by decide) (by decide) (by decide)

/-- **C4.** Directive matching is case-insensitive and synonym-aware:
"EVENT", "epoch" and "Event-Related" behave exactly like
"event-related" on every input, and "Interval" and "resting-state"
delegate to the interval-related strategy on every input. -/
theorem emg_analyze_directive_synonyms {α : Type}
    (er ir : Data → Except Err α) (data : Data) (sr : ℚ) :
    emg_analyze er ir data sr "EVENT" = emg_analyze er ir data sr "event-related" ∧
    emg_analyze er ir data sr "epoch" = emg_analyze er ir data sr "event-related" ∧
    emg_analyze er ir data sr "Event-Related" = emg_analyze er ir data sr "event-related" ∧
    emg_analyze er ir data sr "Interval" = ir data ∧
    emg_analyze er ir data sr "resting-state" = ir data := by
  refine ⟨?_, ?_, ?_, ?_, ?_⟩ <;> simp +decide [emg_analyze]

/-- **C5, counterexample.** An epoch collection whose first epoch has a
"Label" column but whose last epoch does not: the full column-name set
of the collection contains a marker, yet event-related dispatch fails
the marker check, because only the last-visited epoch's columns were
kept by the sanity-check loop. -/
theorem emg_analyze_marker_check_not_full_set :
    ((allColnames (.epochs [⟨["Label"], 200⟩, ⟨["EMG"], 200⟩])).filter
        (fun i => strContains i "Label")).length ≠ 0 ∧
    emg_analyze erConst irConst (.epochs [⟨["Label"], 200⟩, ⟨["EMG"], 200⟩]) 1000
      "event-related" = .error .wrongInput := by decide

/-- **C5, amended.** For an event-related directive on an epoch
collection, the marker-column check examines only the last-visited
epoch's column names: the loop overwrites `colnames` on every
iteration, so the epochs before the last have no influence on the
check's outcome. -/
theorem emg_analyze_marker_check_last_epoch {α : Type}
    (er ir : Data → Except Err α) (fs : List Frame) (f : Frame)
    (sr : ℚ) (m : String) (hm : pyLower m ∈ eventLabels) :
    emg_analyze er ir (.epochs (fs ++ [f])) sr m =
      if (f.columns.filter (fun i => strContains i "Label")).length = 0 then
        .error .wrongInput
      else er (.epochs (fs ++ [f])) := by
  simp [emg_analyze, hm, lastColnames, List.getLast?_concat]

/-- Witness for the amended C5: with a marker-bearing first epoch and a
markerless last epoch, the check is decided by the last epoch alone. -/
theorem emg_analyze_marker_check_last_epoch_witness :
    emg_analyze erConst irConst (.epochs ([⟨["Label"], 200⟩] ++ [⟨["EMG"], 200⟩])) 1000
      "event-related" =
      if ((Frame.mk ["EMG"] 200).columns.filter (fun i => strContains i "Label")).length = 0
      then .error .wrongInput
      else erConst (.epochs ([⟨["Label"], 200⟩] ++ [⟨["EMG"], 200⟩])) :=
  emg_analyze_marker_check_last_epoch erConst irConst [⟨["Label"], 200⟩] ⟨["EMG"], 200⟩
    1000 "event-related" (by decide)

/-- **C6.** For the epoch collection {0: 200-row table, 1: 200-row
table} at sampling rate 1000 in auto mode, the computed duration is the
last-visited epoch's row count over the sampling rate, 200/1000 = 0.2 s,
and the dispatcher delegates to the event-related strategy. -/
theorem emg_analyze_auto_epochs_concrete {α : Type}
    (er ir : Data → Except Err α) :
    autoDuration (.epochs [⟨["EMG"], 200⟩, ⟨["EMG"], 200⟩]) 1000 = some (1 / 5) ∧
    emg_analyze er ir (.epochs [⟨["EMG"], 200⟩, ⟨["EMG"], 200⟩]) 1000 "auto"
      = er (.epochs [⟨["EMG"], 200⟩, ⟨["EMG"], 200⟩]) := by
  have h : lastLen (.epochs [⟨["EMG"], 200⟩, ⟨["EMG"], 200⟩]) = some 200 := by decide
  constructor
  · simp only [autoDuration, h, Option.map_some']
    norm_num
  · simp +decide [emg_analyze, h]
    norm_num

/-- **C7.** With directive "event-related", a table with columns
["EMG_Amplitude", "Label"] is forwarded to the event-related strategy,
while a table with columns ["EMG_Amplitude"] (no name containing
"Label") fails with the Missing-Marker-Column ValueError. -/
theorem emg_analyze_eventrelated_dispatch {α : Type}
    (er ir : Data → Except Err α) :
    emg_analyze er ir (.frame ⟨["EMG_Amplitude", "Label"], 100⟩) 1000 "event-related"
      = er (.frame ⟨["EMG_Amplitude", "Label"], 100⟩) ∧
    emg_analyze er ir (.frame ⟨["EMG_Amplitude"], 100⟩) 1000 "event-related"
      = .error .wrongInput := by
  constructor <;> simp +decide [emg_analyze, lastColnames]

/-- **C8.** The dispatcher either returns a downstream strategy's result
verbatim (`er data` or `ir data` as a whole `Except` value, so both
successes and downstream failures pass through unchanged) or fails
itself before delegating with one of its own errors (the marker-check
ValueError, an UnboundLocalError, or a ZeroDivisionError).  In
particular every successful dispatch returns exactly what the
directly-invoked strategy returns on the same input, untransformed. -/
theorem emg_analyze_delegation_verbatim {α : Type}
    (er ir : Data → Except Err α) (data : Data) (sr : ℚ) (m : String) :
    emg_analyze er ir data sr m = er data ∨
    emg_analyze er ir data sr m = ir data ∨
    emg_analyze er ir data sr m = .error .wrongInput ∨
    (∃ v, emg_analyze er ir data sr m = .error (.unboundLocal v)) ∨
    emg_analyze er ir data sr m = .error .zeroDivision := by
  by_cases h1 : pyLower m ∈ eventLabels
  · cases hc : lastColnames data with
    | none =>
      refine .inr (.inr (.inr (.inl ⟨"colnames", ?_⟩)))
      simp [emg_analyze, h1, hc]
    | some cs =>
      by_cases h2 : (cs.filter (fun i => strContains i "Label")).length = 0
      · refine .inr (.inr (.inl ?_))
        simp [emg_analyze, h1, hc, h2]
      · refine .inl ?_
        simp [emg_analyze, h1, hc, h2]
  · by_cases h2 : pyLower m ∈ intervalLabels
    · refine .inr (.inl ?_)
      simp [emg_analyze, h1, h2]
    · by_cases h3 : pyLower m = "auto"
      · cases hn : lastLen data with
        | none =>
          refine .inr (.inr (.inr (.inl ⟨"duration", ?_⟩)))
          simp +decide [emg_analyze, h1, h2, h3, hn]
        | some n =>
          by_cases h4 : sr = 0
          · refine .inr (.inr (.inr (.inr ?_)))
            simp +decide [emg_analyze, h1, h2, h3, hn, h4]
          · by_cases h5 : (n : ℚ) / sr ≥ 10
            · refine .inr (.inl ?_)
              simp +decide [emg_analyze, h1, h2, h3, hn, h4, h5]
            · refine .inl ?_
              simp +decide [emg_analyze, h1, h2, h3, hn, h4, h5]
      · refine .inr (.inr (.inr (.inl ⟨"features", ?_⟩)))
        simp [emg_analyze, h1, h2, h3]

/-- **C9.** Any directive whose lowercase form is an interval-related
synonym delegates straight to the interval-related strategy with no
shape validation: the marker check never runs on this path, whatever
the input. -/
theorem emg_analyze_intervalrelated_no_validation {α : Type}
    (er ir : Data → Except Err α) (data : Data) (sr : ℚ) (m : String)
    (hm : pyLower m ∈ intervalLabels) :
    emg_analyze er ir data sr m = ir data := by
  simp [emg_analyze, hm, not_mem_eventLabels_of_mem_intervalLabels hm]

/-- Witness for C9: the directive "Interval" on a table with no "Label"
column still delegates to the interval-related strategy. -/
theorem emg_analyze_intervalrelated_no_validation_witness :
    emg_analyze erConst irConst (.frame ⟨["EMG_Amplitude"], 100⟩) 1000 "Interval"
      = irConst (.frame ⟨["EMG_Amplitude"], 100⟩) :=
  emg_analyze_intervalrelated_no_validation erConst irConst
    (.frame ⟨["EMG_Amplitude"], 100⟩) 1000 "Interval" (by decide)

/-- **C10.** With any explicit event-related or interval-related
directive (any synonym, any case) the sampling rate does not influence
behaviour: two calls differing only in sampling rate take the same
branch and return the same result.  (In the embedding the downstream
strategies receive only `data`, mirroring that the source never
forwards the sampling rate to them.) -/
theorem emg_analyze_sampling_rate_irrelevant {α : Type}
    (er ir : Data → Except Err α) (data : Data) (sr1 sr2 : ℚ) (m : String)
    (hm : pyLower m ∈ eventLabels ∨ pyLower m ∈ intervalLabels) :
    emg_analyze er ir data sr1 m = emg_analyze er ir data sr2 m := by
  rcases hm with hm | hm
  · simp [emg_analyze, hm]
  · simp [emg_analyze, hm, not_mem_eventLabels_of_mem_intervalLabels hm]

/-- Witness for C10: the directive "EVENT" gives the same result at
sampling rates 1000 and 25. -/
theorem emg_analyze_sampling_rate_irrelevant_witness :
    emg_analyze erConst irConst (.frame ⟨["EMG_Amplitude", "Label"], 100⟩) 1000 "EVENT"
      = emg_analyze erConst irConst (.frame ⟨["EMG_Amplitude", "Label"], 100⟩) 25 "EVENT" :=
  emg_analyze_sampling_rate_irrelevant erConst irConst
    (.frame ⟨["EMG_Amplitude", "Label"], 100⟩) 1000 25 "EVENT" (Or.inl (by decide))
